import Mathlib

set_option maxHeartbeats 1000000

/-!
Shallow embedding of the detection engine of the ChaChing Safari browser
extension (brand voter, PDP scorer, registry loader, orchestration
decisions), together with theorems settling the specification claims.

DOM-dependent inputs (query results, element texts, parsed JSON-LD
scripts, the hostname) are modelled as explicit fields of page-state
structures; every detector is then a pure function of that state, exactly
mirroring the JavaScript source.  JavaScript exceptions around
`JSON.parse` are modelled by `Option` values (`none` = the parse threw).
-/

/-- Characters removed by `normalizeBrand`'s symbol regex
`/[''®™&©\-\.,]/g` (utils.js line 670): apostrophe (39), ® (174),
™ (8482), & (38), © (169), hyphen (45), dot (46), comma (44). -/
def isNormSymbol (c : Char) : Bool :=
  c.toNat == 39 || c.toNat == 174 || c.toNat == 8482 || c.toNat == 38 ||
  c.toNat == 169 || c.toNat == 45 || c.toNat == 46 || c.toNat == 44

/-- The JavaScript `\s` whitespace character class (also the set stripped
by `String.prototype.trim`). -/
def isJsWs (c : Char) : Bool :=
  let n := c.toNat
  n == 9 || n == 10 || n == 11 || n == 12 || n == 13 || n == 32 ||
  n == 160 || n == 5760 || (8192 ≤ n && n ≤ 8202) || n == 8232 ||
  n == 8233 || n == 8239 || n == 8287 || n == 12288 || n == 65279

/-- JavaScript `String.prototype.trim` on a character list. -/
def jsTrimChars (cs : List Char) : List Char :=
  ((cs.dropWhile isJsWs).reverse.dropWhile isJsWs).reverse

/-- JavaScript `String.prototype.trim`. -/
def strTrim (s : String) : String := String.mk (jsTrimChars s.data)

/-- `normalizeBrand` (utils.js lines 664-673): falsy / empty input maps to
`''`; otherwise lower-case, strip the symbol class, strip all whitespace
(`/\s+/g` → `''`), then trim (a no-op after whitespace removal, kept for
faithfulness).  `toLowerCase` is modelled by `Char.toLower` (ASCII). -/
def normalizeBrand (s : String) : String :=
  if s = "" then ""
  else String.mk (jsTrimChars
    (((s.data.map Char.toLower).filter (fun c => !isNormSymbol c)).filter
      (fun c => !isJsWs c)))

/-- JavaScript `String.prototype.split` with a single-character
separator: split into (possibly empty) segments at every occurrence. -/
def splitChars (sep : Char) (cs : List Char) : List (List Char) :=
  cs.foldr
    (fun c acc =>
      if c == sep then [] :: acc
      else
        match acc with
        | h :: t => (c :: h) :: t
        | [] => [[c]])
    [[]]

/-- JavaScript `s.split(sep)` for a one-character separator. -/
def strSplitChar (s : String) (sep : Char) : List String :=
  (splitChars sep s.data).map String.mk

/-- Does `pat` occur at the head of `cs`? (literal character match). -/
def charsLead : List Char → List Char → Bool
  | [], _ => true
  | _ :: _, [] => false
  | a :: as, b :: bs => a == b && charsLead as bs

/-- JavaScript `String.prototype.includes` (literal substring test). -/
def strIncludesAux (pat : List Char) : List Char → Bool
  | [] => charsLead pat []
  | c :: rest => charsLead pat (c :: rest) || strIncludesAux pat rest

/-- JavaScript `s.includes(pat)`. -/
def strIncludes (s pat : String) : Bool := strIncludesAux pat.data s.data

/-- A JavaScript JSON value, as produced by `JSON.parse`. -/
inductive JVal where
  | jnull : JVal
  | jstr : String → JVal
  | jnum : Int → JVal
  | jbool : Bool → JVal
  | jarr : List JVal → JVal
  | jobj : List (String × JVal) → JVal

/-- Property access `v[k]` / `v.k`: a field of an object, `none` when the
field is absent or the value is not an object (JS `undefined`; `null.k`
would throw in JS, but every such access in the sources sits inside a
`try`/optional-chain whose outcome coincides with `none`). -/
def jGet (v : JVal) (k : String) : Option JVal :=
  match v with
  | JVal.jobj fields => (fields.find? (fun f => f.1 == k)).map (fun f => f.2)
  | _ => none

/-- JavaScript truthiness of a JSON value. -/
def jTruthy (v : JVal) : Bool :=
  match v with
  | JVal.jnull => false
  | JVal.jstr s => !(s == "")
  | JVal.jnum n => !(n == 0)
  | JVal.jbool b => b
  | JVal.jarr _ => true
  | JVal.jobj _ => true

/-- `a || b` on optional JS values (`none` = `undefined`, which is falsy). -/
def jsOr (a b : Option JVal) : Option JVal :=
  match a with
  | some x => if jTruthy x then some x else b
  | none => b

/-- `data.brand?.name || data.brand` (used by both detectors on JSON-LD). -/
def jBrandField (data : JVal) : Option JVal :=
  match jGet data "brand" with
  | none => none
  | some b => jsOr (jGet b "name") (some b)

/-- A supported-brand record as built by `loadBrands` (brands.js):
the original display name plus the cashback level. -/
structure Brand where
  name : String
  cashback : Nat
deriving Repr, DecidableEq

/-- Parsing of the `BrandList.csv` payload (brands.js lines 20-24):
split on newlines, skip the header line, trim each row, strip `"` quotes,
drop empty rows.  Each surviving row is taken whole as a brand name. -/
def parseBrandNames (csvText : String) : List String :=
  (((strSplitChar csvText (Char.ofNat 10)).drop 1).map
    (fun line => String.mk ((strTrim line).data.filter
      (fun c => !(c == Char.ofNat 34))))).filter (fun n => !(n == ""))

/-- The brand objects built by `loadBrands` (brands.js lines 27-30): every
row gets the static cashback value 33. -/
def loadBrandsList (csvText : String) : List Brand :=
  (parseBrandNames csvText).map (fun n => { name := n, cashback := 33 })

/-- One `Map.set` step on an association-list model of a JS `Map`:
an existing key keeps its position and gets the new value, a new key is
appended. -/
def mapSet (m : List (String × Brand)) (k : String) (v : Brand) :
    List (String × Brand) :=
  if m.any (fun kv => kv.1 == k) then
    m.map (fun kv => if kv.1 == k then (k, v) else kv)
  else m ++ [(k, v)]

/-- `new Map(entries)`: insert the entries left to right. -/
def buildMap (pairs : List (String × Brand)) : List (String × Brand) :=
  pairs.foldl (fun m kv => mapSet m kv.1 kv.2) []

/-- The `[normalizeBrand(name), brand]` entry list fed to the `Map`
constructor (brands.js line 34). -/
def loadBrandsPairs (csvText : String) : List (String × Brand) :=
  (loadBrandsList csvText).map (fun b => (normalizeBrand b.name, b))

/-- `SUPPORTED_BRANDS_MAP` as built by `loadBrands` from a payload. -/
def loadBrandsMap (csvText : String) : List (String × Brand) :=
  buildMap (loadBrandsPairs csvText)

/-- `Map.prototype.get` on the association-list model. -/
def mapGet (m : List (String × Brand)) (k : String) : Option Brand :=
  (m.find? (fun kv => kv.1 == k)).map (fun kv => kv.2)

/-- Number of candidates whose normalization equals the registry key `k`
(the vote count accumulated by `determineBestBrandByVotes`). -/
def countVotes (candidates : List String) (k : String) : Nat :=
  (candidates.filter (fun c => normalizeBrand c == k)).length

/-- The `voteCounts` map after both loops of `determineBestBrandByVotes`
(brand-detector.js lines 159-171): registry keys in iteration order, each
with its candidate-match count, keys with zero votes absent.  The registry
is the association list of `SUPPORTED_BRANDS_MAP` (keys unique). -/
def tallyVotes (candidates : List String) (registry : List (String × Brand)) :
    List (String × Nat) :=
  registry.filterMap (fun kv =>
    if 0 < countVotes candidates kv.1
    then some (kv.1, countVotes candidates kv.1) else none)

/-- The winner-selection loop (brand-detector.js lines 179-186): running
maximum with a strict `votes > maxVotes` test, starting from 0 / null. -/
def selectWinner : List (String × Nat) → Nat → Option String → Option String
  | [], _, w => w
  | kv :: rest, maxV, w =>
    if maxV < kv.2 then selectWinner rest kv.2 (some kv.1)
    else selectWinner rest maxV w

/-- `determineBestBrandByVotes` (brand-detector.js lines 156-195).  The
final `if (winningBrandName)` (line 188) is a JS truthiness test: it
rejects both `null` (no entry beat the initial 0) and the falsy empty
string, so a winning key `""` also yields `null`. -/
def determineBestBrandByVotes (candidates : List String)
    (registry : List (String × Brand)) : Option Brand :=
  if candidates.isEmpty then none
  else
    let voteCounts := tallyVotes candidates registry
    if voteCounts.isEmpty then none
    else
      match selectWinner voteCounts 0 none with
      | some k => if k == "" then none else mapGet registry k
      | none => none

/-- `extractMainDomain` (brand-detector.js lines 138-147): split the
hostname on dots; with at least two labels return the second-to-last
label, otherwise the whole hostname; `null` for an empty hostname. -/
def extractMainDomain (hostname : String) : Option String :=
  if hostname = "" then none
  else
    let domainParts := strSplitChar hostname (Char.ofNat 46)
    if 2 ≤ domainParts.length then
      some (domainParts.getD (domainParts.length - 2) "")
    else some hostname

/-- JavaScript `String.prototype.toLowerCase` (ASCII model). -/
def strToLower (s : String) : String := String.mk (s.data.map Char.toLower)

/-- The regex word-character class `\w` = `[A-Za-z0-9_]`. -/
def isWordChar (c : Char) : Bool := c.isAlphanum || c == '_'

/-- Is position `j` of `t` occupied by a word character? (out of bounds
counts as non-word, as in regex semantics). -/
def wordishAt (t : List Char) (j : Nat) : Bool :=
  match t.get? j with
  | some c => isWordChar c
  | none => false

/-- Does the regex anchor `\b` match between positions `j-1` and `j`? -/
def isBoundary (t : List Char) (j : Nat) : Bool :=
  (if j = 0 then false else wordishAt t (j - 1)) != wordishAt t j

/-- Does the regex `\b pat \b` (with `pat` literal) match at index `i`? -/
def wbMatchAt (t pat : List Char) (i : Nat) : Bool :=
  charsLead pat (t.drop i) && isBoundary t i && isBoundary t (i + pat.length)

/-- Index of the leftmost match of `\b pat \b` in `t`. -/
def wbFirst (t pat : List Char) : Option Nat :=
  (List.range (t.length + 1)).find? (fun i => wbMatchAt t pat i)

/-- Strategy 2 of `findAllBrandCandidates` for one registry key:
case-insensitive whole-word search of the key in the product title,
yielding the matched substring in its original casing
(brand-detector.js lines 68-81; keys contain no regex metacharacters). -/
def titleCandidate (productTitle : String) (key : String) : Option String :=
  match wbFirst (productTitle.data.map Char.toLower) key.data with
  | some i => some (String.mk ((productTitle.data.drop i).take key.data.length))
  | none => none

/-- The DOM inputs consumed by the brand detector, one field per signal
source queried by `findAllBrandCandidates` / `extractProductTitle`.
`sdScript`: the first JSON-LD script element (`none` = absent) and the
outcome of `JSON.parse` on it (`some none` = the parse threw).  The other
fields are the `innerText` / `content` strings of the respective query
results (`none` = element absent). -/
structure BrandPage where
  sdScript : Option (Option JVal)
  h1Text : Option String
  ogTitle : Option String
  docTitle : String
  ogBrand : Option String
  brandSelectorTexts : List (Option String)
  brandLabelValues : List (Option String)
  breadcrumbSecondToLast : Option String
  ogSiteName : Option String
  hostname : String

/-- `extractProductTitle` (brand-detector.js lines 203-212): first
non-empty of trimmed H1 text, Open-Graph title, document title. -/
def extractProductTitle (p : BrandPage) : String :=
  match p.h1Text with
  | some t =>
    if !(strTrim t == "") then strTrim t
    else
      match p.ogTitle with
      | some c => if !(c == "") then strTrim c else strTrim p.docTitle
      | none => strTrim p.docTitle
  | none =>
    match p.ogTitle with
    | some c => if !(c == "") then strTrim c else strTrim p.docTitle
    | none => strTrim p.docTitle

/-- Strategy 1: brand from JSON-LD structured data (lines 54-62); a parse
error is swallowed by the `catch` and yields no candidate. -/
def structuredDataCandidates (p : BrandPage) : List String :=
  match p.sdScript with
  | some (some data) =>
    match jBrandField data with
    | some (JVal.jstr b) => if strTrim b == "" then [] else [strTrim b]
    | _ => []
  | _ => []

/-- Strategy 2: one candidate per registry key whole-word-matched in the
title (lines 64-82); skipped when the extracted title is empty. -/
def titleCandidates (p : BrandPage) (supportedKeys : List String) :
    List String :=
  let productTitle := extractProductTitle p
  if productTitle == "" then []
  else supportedKeys.filterMap (fun key => titleCandidate productTitle key)

/-- Strategies 3 and 7: a meta tag's `content`, trimmed, when truthy. -/
def optContentCandidate (o : Option String) : List String :=
  match o with
  | some c => if c == "" then [] else [strTrim c]
  | none => []

/-- Strategies 4 and 5: trimmed `innerText` of each found element, when
the trimmed text is truthy. -/
def innerTextCandidates (l : List (Option String)) : List String :=
  l.filterMap (fun o =>
    match o with
    | some t => if strTrim t == "" then none else some (strTrim t)
    | none => none)

/-- Strategy 6: the second-to-last breadcrumb item, unless short or a
generic term (lines 107-114). -/
def breadcrumbCandidate (p : BrandPage) : List String :=
  match p.breadcrumbSecondToLast with
  | some t =>
    let c := strTrim t
    if 2 < c.length && !(["home", "products", "shop"].contains (strToLower c))
    then [c] else []
  | none => []

/-- Strategy 8: the extracted main-domain label, when truthy
(lines 120-125). -/
def domainCandidate (p : BrandPage) : List String :=
  match extractMainDomain p.hostname with
  | some d => if d == "" then [] else [d]
  | none => []

/-- `findAllBrandCandidates` (brand-detector.js lines 51-129): the
concatenation of all eight strategies' candidates, in source order,
duplicates kept. -/
def findAllBrandCandidates (p : BrandPage) (supportedKeys : List String) :
    List String :=
  structuredDataCandidates p ++ titleCandidates p supportedKeys ++
  optContentCandidate p.ogBrand ++ innerTextCandidates p.brandSelectorTexts ++
  innerTextCandidates p.brandLabelValues ++ breadcrumbCandidate p ++
  optContentCandidate p.ogSiteName ++ domainCandidate p

/-- The `productInfo` payload of a brand detection result. -/
structure ProductInfo where
  brand : String
  title : String
  cashback : Nat
deriving DecidableEq

/-- The object returned by `detectBrandOnPage` on success. -/
structure BrandDetectionResult where
  isSupported : Bool
  productInfo : ProductInfo
deriving DecidableEq

/-- `detectBrandOnPage` (brand-detector.js lines 19-43), with
`SUPPORTED_BRANDS_ARRAY` = the registry's key list. -/
def detectBrandOnPage (p : BrandPage) (registry : List (String × Brand)) :
    Option BrandDetectionResult :=
  let candidates := findAllBrandCandidates p (registry.map (fun kv => kv.1))
  match determineBestBrandByVotes candidates registry with
  | some bestBrand =>
    some { isSupported := true,
           productInfo := { brand := bestBrand.name,
                            title := extractProductTitle p,
                            cashback := bestBrand.cashback } }
  | none => none

/-- The object returned by `detectStructuredData` (pdp-detector.js
lines 1258-1297). -/
structure SDResult where
  found : Bool
  hasOffer : Bool
  productName : Option JVal
  brand : Option JVal
  price : Option JVal

/-- `data['@type'] === 'Product' && data.offers` (truthy). -/
def isProductWithOffers (data : JVal) : Bool :=
  (match jGet data "@type" with
   | some (JVal.jstr t) => t == "Product"
   | _ => false) &&
  (match jGet data "offers" with
   | some o => jTruthy o
   | none => false)

/-- The success result `detectStructuredData` builds from a matching
Product node. -/
def mkSDResult (data : JVal) : SDResult :=
  { found := true, hasOffer := true,
    productName := jGet data "name",
    brand := jBrandField data,
    price := match jGet data "offers" with
             | some o => jGet o "price"
             | none => none }

/-- `detectStructuredData` over the page's JSON-LD scripts, each given as
the outcome of `JSON.parse` (`none` = the parse threw and the per-script
`catch` skips to the next script).  A top-level Product-with-offers wins;
otherwise a Product-with-offers inside an `@graph` array; otherwise the
next script is tried. -/
def detectStructuredData : List (Option JVal) → SDResult
  | [] => { found := false, hasOffer := false,
            productName := none, brand := none, price := none }
  | none :: rest => detectStructuredData rest
  | some data :: rest =>
    if isProductWithOffers data then mkSDResult data
    else
      match jGet data "@graph" with
      | some (JVal.jarr items) =>
        match items.find? (fun item => isProductWithOffers item) with
        | some product => mkSDResult product
        | none => detectStructuredData rest
      | _ => detectStructuredData rest

/-- The outcomes of the eleven detector methods of `PdpDetector` on the
current document: the gate plus the ten scored signals.  Each boolean is
the return value of the corresponding pure DOM check
(`detectPrice().found` for `priceFound`). -/
structure PdpDoc where
  actionButtons : Bool
  structuredData : SDResult
  priceFound : Bool
  images : Bool
  urlPattern : Bool
  reviews : Bool
  description : Bool
  metadata : Bool
  selectors : Bool
  breadcrumbs : Bool
  shipping : Bool

/-- The observable outcome of one `isProductPage()` pass: the returned
boolean, the final `confidenceScore`, and which of the ten signal
detectors were invoked (in call order). -/
structure PdpRun where
  isPDP : Bool
  score : Nat
  evaluated : List String
deriving DecidableEq

/-- The ten signal detectors `isProductPage` invokes after the gate, in
source order. -/
def pdpDetectorNames : List String :=
  ["detectStructuredData", "detectPrice", "detectProductImages",
   "detectProductUrlPattern", "detectReviews", "detectProductDescription",
   "detectProductMetadata", "detectProductSelectors", "detectBreadcrumbs",
   "detectShippingInfo"]

/-- `isProductPage` (pdp-detector.js lines 759-842): if the action-button
gate fails, return immediately (false, no score accumulated, no signal
detector invoked); otherwise accumulate the ten weighted signals exactly
as the source does and compare against the threshold 75. -/
def isProductPageRun (d : PdpDoc) : PdpRun :=
  if !d.actionButtons then { isPDP := false, score := 0, evaluated := [] }
  else
    let s1 := if d.structuredData.found && d.structuredData.hasOffer
              then 0 + 40 else 0
    let s2 := if d.priceFound then s1 + 25 else s1
    let s3 := if d.images then s2 + 20 else s2
    let s4 := if d.urlPattern then s3 + 25 else s3
    let s5 := if d.reviews then s4 + 15 else s4
    let s6 := if d.description then s5 + 15 else s5
    let s7 := if d.metadata then s6 + 10 else s6
    let s8 := if d.selectors then s7 + 10 else s7
    let s9 := if d.breadcrumbs then s8 + 15 else s8
    let s10 := if d.shipping then s9 + 15 else s9
    { isPDP := decide (75 ≤ s10), score := s10,
      evaluated := pdpDetectorNames }

/-- Weight contributed by one boolean signal. -/
def signalWeight (b : Bool) (w : Nat) : Nat := if b then w else 0

/-- The specification-side weighted sum of the ten signals with their
fixed weights. -/
def pdpWeightedSum (d : PdpDoc) : Nat :=
  signalWeight (d.structuredData.found && d.structuredData.hasOffer) 40 +
  signalWeight d.priceFound 25 + signalWeight d.images 20 +
  signalWeight d.urlPattern 25 + signalWeight d.reviews 15 +
  signalWeight d.description 15 + signalWeight d.metadata 10 +
  signalWeight d.selectors 10 + signalWeight d.breadcrumbs 15 +
  signalWeight d.shipping 15

/-- A PDP document state with the structured-data signal refined down to
the page's JSON-LD scripts (each the outcome of `JSON.parse`). -/
structure PdpDocF where
  scripts : List (Option JVal)
  actionButtons : Bool
  priceFound : Bool
  images : Bool
  urlPattern : Bool
  reviews : Bool
  description : Bool
  metadata : Bool
  selectors : Bool
  breadcrumbs : Bool
  shipping : Bool

/-- Evaluate the structured-data detector on the scripts and assemble the
full document state. -/
def toPdpDoc (d : PdpDocF) : PdpDoc :=
  { actionButtons := d.actionButtons,
    structuredData := detectStructuredData d.scripts,
    priceFound := d.priceFound, images := d.images,
    urlPattern := d.urlPattern, reviews := d.reviews,
    description := d.description, metadata := d.metadata,
    selectors := d.selectors, breadcrumbs := d.breadcrumbs,
    shipping := d.shipping }

/-- One whole `isProductPage()` pass starting from the raw scripts. -/
def runFull (d : PdpDocF) : PdpRun := isProductPageRun (toPdpDoc d)

/-- The special-merchant hostnames hard-coded in `startDetection`
(content_main.js line 152). -/
def specialMerchants : List String :=
  ["steals.com", "beachcamera.com", "videoshops.com", "salonhq.com",
   "pedalelectric.com"]

/-- The decision of the content script's `detectPage` closure
(content_main.js lines 135-177) to treat the page as actionable (show the
notification and message the background): taken when the detection result
is supported, and otherwise when the hostname contains a special-merchant
domain.  `isProductPage` is not consulted. -/
def startDetectionActs (result : Option BrandDetectionResult)
    (hostname : String) : Bool :=
  match result with
  | some r =>
    if r.isSupported then true
    else specialMerchants.any (fun m => strIncludes (strToLower hostname) m)
  | none => specialMerchants.any (fun m => strIncludes (strToLower hostname) m)

/-- The background's decision in `handleDetectionComplete`
(background/main.js lines 261-304) to inject the notification UI:
`brandResult && brandResult.isSupported && isPdp`. -/
def handleDetectionCompleteInjectsUI
    (brandResult : Option BrandDetectionResult) (isPdp : Bool) : Bool :=
  match brandResult with
  | some r => r.isSupported && isPdp
  | none => false

/-- The input guard of `normalizeBrand` (utils.js line 666) for arbitrary
JS values: any falsy or non-string input yields `''`. -/
def normalizeBrandJS (v : JVal) : String :=
  match v with
  | JVal.jstr s => normalizeBrand s
  | _ => ""

/-- An empty structured-data outcome (no Product-with-offers found). -/
def sdAbsent : SDResult :=
  { found := false, hasOffer := false, productName := none, brand := none,
    price := none }

/-- A structured-data outcome reporting a Product with an offer. -/
def sdProduct : SDResult :=
  { found := true, hasOffer := true, productName := none, brand := none,
    price := none }

/-- A parsed JSON-LD `Product` node carrying an offer. -/
def prodNode : JVal :=
  JVal.jobj [("@type", JVal.jstr "Product"),
             ("offers", JVal.jobj [("price", JVal.jnum 50)])]

/-- Document state with the gate failing but every scored signal present. -/
def pdpDocGateFail : PdpDoc :=
  { actionButtons := false, structuredData := sdProduct, priceFound := true,
    images := true, urlPattern := true, reviews := true, description := true,
    metadata := true, selectors := true, breadcrumbs := true,
    shipping := true }

/-- Document state with the gate passing and every scored signal present. -/
def pdpDocAllTrue : PdpDoc :=
  { pdpDocGateFail with actionButtons := true }

/-- A page carrying an H1 title and hostname, with every other brand
signal absent. -/
def nikePage : BrandPage :=
  { sdScript := none, h1Text := some "Nike Air Max 90", ogTitle := none,
    docTitle := "", ogBrand := none, brandSelectorTexts := [],
    brandLabelValues := [], breadcrumbSecondToLast := none,
    ogSiteName := none, hostname := "www.nike.com" }

/-- A two-row brand-list payload in the shipped single-column format. -/
def csvTwoBrands : String := "brand\nNike\nAdidas"

/-- A brand-list payload in the spec's `name,cashbackPercent` row format,
with a per-row cashback of 10. -/
def csvWithCashback : String := "name,cashback\nNike,10"

/-- A registry with two supported brands. -/
def regTwo : List (String × Brand) :=
  [("nike", { name := "Nike", cashback := 33 }),
   ("adidas", { name := "Adidas", cashback := 33 })]

/-- A scripts-level PDP document: a malformed JSON-LD script followed by a
valid Product script, price and URL signals present, gate passing. -/
def pdpDocFMixed : PdpDocF :=
  { scripts := [none, some prodNode], actionButtons := true,
    priceFound := true, images := false, urlPattern := true,
    reviews := false, description := false, metadata := false,
    selectors := false, breadcrumbs := false, shipping := false }

/-- A supported brand-detection result (as produced for the Nike page). -/
def suppResult : BrandDetectionResult :=
  { isSupported := true,
    productInfo := { brand := "Nike", title := "Nike Air Max 90",
                     cashback := 33 } }

/-- The Nike page relocated to a UK co.uk host (claim C5's example). -/
def leviPage : BrandPage := { nikePage with hostname := "www.levi.co.uk" }

theorem char_toNat_ofNat_lt {n : Nat} (h : n < 55296) :
    (Char.ofNat n).toNat = n := by
  have hv : n.isValidChar := Or.inl h
  rw [Char.ofNat, dif_pos hv]
  rfl

theorem toLower_toLower (c : Char) : c.toLower.toLower = c.toLower := by
  have key : ∀ m : Nat, 65 ≤ m → m ≤ 90 → (Char.ofNat (m + 32)).toNat = m + 32 :=
    fun m _ h2 => char_toNat_ofNat_lt (by omega)
  simp only [Char.toLower]
  split
  · next h =>
    split
    · next h2 =>
      rw [key c.toNat h.1 h.2] at h2
      omega
    · rfl
  · rfl

theorem mapSelf {α : Type} {f : α → α} :
    ∀ {l : List α}, (∀ c ∈ l, f c = c) → l.map f = l
  | [], _ => rfl
  | a :: l, h => by
    simp only [List.map_cons, List.cons.injEq]
    exact ⟨h a (List.mem_cons_self a l),
           mapSelf (fun c hc => h c (List.mem_cons_of_mem a hc))⟩

theorem dropWhileSelf {p : α → Bool} :
    ∀ {l : List α}, (∀ c ∈ l, p c = false) → l.dropWhile p = l
  | [], _ => rfl
  | a :: l, h => by
    simp [List.dropWhile, h a (List.mem_cons_self a l)]

theorem jsTrim_eq_self {l : List Char} (h : ∀ c ∈ l, isJsWs c = false) :
    jsTrimChars l = l := by
  unfold jsTrimChars
  rw [dropWhileSelf h, dropWhileSelf, List.reverse_reverse]
  intro c hc
  exact h c (List.mem_reverse.mp hc)

theorem mem_of_jsTrim {c : Char} {l : List Char} (h : c ∈ jsTrimChars l) :
    c ∈ l := by
  unfold jsTrimChars at h
  have h1 := List.mem_reverse.mp h
  have h2 := (List.dropWhile_sublist _).mem h1
  have h3 := List.mem_reverse.mp h2
  exact (List.dropWhile_sublist _).mem h3

/-- C6 helper: `normalizeBrand` is idempotent. -/
theorem normalizeBrand_idem (s : String) :
    normalizeBrand (normalizeBrand s) = normalizeBrand s := by
  by_cases hs : s = ""
  · subst hs; rfl
  · by_cases hr : normalizeBrand s = ""
    · rw [hr]; rfl
    · conv_lhs => rw [normalizeBrand, if_neg hr]
      have hdata : (normalizeBrand s).data =
          jsTrimChars (((s.data.map Char.toLower).filter
            (fun c => !isNormSymbol c)).filter (fun c => !isJsWs c)) := by
        rw [normalizeBrand, if_neg hs]
      have hmemL : ∀ c ∈ (normalizeBrand s).data,
          c ∈ ((s.data.map Char.toLower).filter
            (fun c => !isNormSymbol c)).filter (fun c => !isJsWs c) := by
        intro c hc
        rw [hdata] at hc
        exact mem_of_jsTrim hc
      have hlower : ∀ c ∈ (normalizeBrand s).data, Char.toLower c = c := by
        intro c hc
        have h1 := List.mem_filter.mp (hmemL c hc)
        have h2 := List.mem_filter.mp h1.1
        obtain ⟨c', _, rfl⟩ := List.mem_map.mp h2.1
        exact toLower_toLower c'
      have hsym : ∀ c ∈ (normalizeBrand s).data, isNormSymbol c = false := by
        intro c hc
        have h1 := List.mem_filter.mp (hmemL c hc)
        have h2 := List.mem_filter.mp h1.1
        simpa using h2.2
      have hws : ∀ c ∈ (normalizeBrand s).data, isJsWs c = false := by
        intro c hc
        have h1 := List.mem_filter.mp (hmemL c hc)
        simpa using h1.2
      have e1 : List.filter (fun c => !isNormSymbol c)
          (normalizeBrand s).data = (normalizeBrand s).data :=
        List.filter_eq_self.mpr (fun c hc => by simp [hsym c hc])
      have e2 : List.filter (fun c => !isJsWs c)
          (normalizeBrand s).data = (normalizeBrand s).data :=
        List.filter_eq_self.mpr (fun c hc => by simp [hws c hc])
      rw [mapSelf hlower, e1, e2, jsTrim_eq_self hws]

theorem selectWinner_of_all_le :
    ∀ (l : List (String × Nat)) (m : Nat) (w : Option String),
      (∀ kv ∈ l, kv.2 ≤ m) → selectWinner l m w = w
  | [], _, _, _ => rfl
  | kv :: rest, m, w, h => by
    have h1 : ¬ m < kv.2 := by
      have := h kv (List.mem_cons_self kv rest)
      omega
    rw [selectWinner, if_neg h1]
    exact selectWinner_of_all_le rest m w
      (fun x hx => h x (List.mem_cons_of_mem kv hx))

theorem selectWinner_first :
    ∀ (pre : List (String × Nat)) (kv : String × Nat)
      (suf : List (String × Nat)) (m : Nat) (w : Option String),
      m < kv.2 → (∀ x ∈ pre, x.2 < kv.2) → (∀ x ∈ suf, x.2 ≤ kv.2) →
      selectWinner (pre ++ kv :: suf) m w = some kv.1
  | [], kv, suf, m, w, hm, _, hsuf => by
    rw [List.nil_append, selectWinner, if_pos hm]
    exact selectWinner_of_all_le suf kv.2 (some kv.1) hsuf
  | x :: pre, kv, suf, m, w, hm, hpre, hsuf => by
    have hx := hpre x (List.mem_cons_self x pre)
    rw [List.cons_append, selectWinner]
    by_cases h : m < x.2
    · rw [if_pos h]
      exact selectWinner_first pre kv suf x.2 (some x.1) hx
        (fun y hy => hpre y (List.mem_cons_of_mem x hy)) hsuf
    · rw [if_neg h]
      exact selectWinner_first pre kv suf m w hm
        (fun y hy => hpre y (List.mem_cons_of_mem x hy)) hsuf

theorem exists_first_max :
    ∀ (l : List (String × Nat)), l ≠ [] →
      ∃ pre kv suf, l = pre ++ kv :: suf ∧ (∀ x ∈ pre, x.2 < kv.2) ∧
        ∀ x ∈ l, x.2 ≤ kv.2
  | [], h => absurd rfl h
  | [a], _ => ⟨[], a, [], rfl, by simp, by simp⟩
  | a :: b :: t, _ => by
    obtain ⟨pre, kv, suf, heq, hpre, hall⟩ :=
      exists_first_max (b :: t) (by simp)
    by_cases h : a.2 < kv.2
    · refine ⟨a :: pre, kv, suf, ?_, ?_, ?_⟩
      · rw [List.cons_append, ← heq]
      · intro x hx
        rcases List.mem_cons.mp hx with rfl | hx'
        · exact h
        · exact hpre x hx'
      · intro x hx
        rcases List.mem_cons.mp hx with rfl | hx'
        · omega
        · exact hall x hx'
    · refine ⟨[], a, b :: t, rfl, by simp, ?_⟩
      intro x hx
      rcases List.mem_cons.mp hx with rfl | hx'
      · exact Nat.le_refl _
      · have := hall x hx'
        omega

theorem filterMap_decomp {α β : Type} (f : α → Option β) :
    ∀ (R : List α) (p : List β) (e : β) (s : List β),
      R.filterMap f = p ++ e :: s →
      ∃ P kv S, R = P ++ kv :: S ∧ f kv = some e ∧ P.filterMap f = p
  | [], p, e, s, h => by simp at h
  | r :: R, p, e, s, h => by
    rw [List.filterMap_cons] at h
    cases hf : f r with
    | none =>
      rw [hf] at h
      obtain ⟨P, kv, S, h1, h2, h3⟩ := filterMap_decomp f R p e s h
      exact ⟨r :: P, kv, S, by rw [List.cons_append, ← h1], h2,
        by rw [List.filterMap_cons, hf, h3]⟩
    | some v =>
      rw [hf] at h
      cases p with
      | nil =>
        rw [List.nil_append] at h
        have h' := List.cons.inj h
        exact ⟨[], r, R, rfl, by rw [hf, h'.1], rfl⟩
      | cons p0 p' =>
        rw [List.cons_append] at h
        have h' := List.cons.inj h
        obtain ⟨P, kv, S, h1, h2, h3⟩ := filterMap_decomp f R p' e s h'.2
        exact ⟨r :: P, kv, S, by rw [List.cons_append, ← h1], h2,
          by rw [List.filterMap_cons, hf, h3, h'.1]⟩

theorem find_of_mem_nodup :
    ∀ (R : List (String × Brand)) (kv : String × Brand),
      (R.map Prod.fst).Nodup → kv ∈ R →
      R.find? (fun x => x.1 == kv.1) = some kv
  | [], kv, _, h => absurd h (List.not_mem_nil kv)
  | r :: R, kv, hnd, hmem => by
    rw [List.map_cons, List.nodup_cons] at hnd
    rcases List.mem_cons.mp hmem with rfl | hmem'
    · simp [List.find?_cons]
    · have hne : (r.1 == kv.1) = false := by
        simp only [beq_eq_false_iff_ne, ne_eq]
        intro hbeq
        exact hnd.1 (hbeq ▸ List.mem_map.mpr ⟨kv, hmem', rfl⟩)
      rw [List.find?_cons]
      simp only [hne]
      exact find_of_mem_nodup R kv hnd.2 hmem'

theorem tallyVotes_mem {C : List String} {R : List (String × Brand)}
    {e : String × Nat} (h : e ∈ tallyVotes C R) :
    e.2 = countVotes C e.1 ∧ 0 < e.2 ∧ e.1 ∈ R.map Prod.fst := by
  unfold tallyVotes at h
  obtain ⟨kv, hkv, hf⟩ := List.mem_filterMap.mp h
  by_cases hpos : 0 < countVotes C kv.1
  · rw [if_pos hpos] at hf
    obtain rfl := Option.some.inj hf
    exact ⟨rfl, hpos, List.mem_map.mpr ⟨kv, hkv, rfl⟩⟩
  · rw [if_neg hpos] at hf
    exact absurd hf (by simp)

theorem tallyVotes_mem_of {C : List String} {R : List (String × Brand)}
    (kv : String × Brand) (hkv : kv ∈ R) (hpos : 0 < countVotes C kv.1) :
    (kv.1, countVotes C kv.1) ∈ tallyVotes C R := by
  unfold tallyVotes
  exact List.mem_filterMap.mpr ⟨kv, hkv, by rw [if_pos hpos]⟩

theorem tallyVotes_nil {C : List String} {R : List (String × Brand)}
    (h : tallyVotes C R = []) : ∀ kv ∈ R, countVotes C kv.1 = 0 := by
  intro kv hkv
  by_contra hne
  have hpos : 0 < countVotes C kv.1 := Nat.pos_of_ne_zero hne
  have hmem := tallyVotes_mem_of kv hkv hpos
  rw [h] at hmem
  exact absurd hmem (List.not_mem_nil _)

theorem determineBest_eq (C : List String) (R : List (String × Brand)) :
    determineBestBrandByVotes C R =
      if C.isEmpty then none
      else if (tallyVotes C R).isEmpty then none
      else
        match selectWinner (tallyVotes C R) 0 none with
        | some k => if k == "" then none else mapGet R k
        | none => none := rfl

/-- C2 amended: for every candidate list and registry (an association
list with the unique keys of the JS `Map`), the vote returns `none`
whenever no candidate normalizes to any registry key; whenever it returns
a record, that record belongs to the first registry key in iteration
order with the strictly highest vote count, and that key is non-empty;
and `none` arises only in exactly two ways: no candidate matches any key,
or the winning key is the empty string (rejected by the JS falsy-string
guard `if (winningBrandName)`). -/
theorem c2_vote_winner (C : List String) (R : List (String × Brand))
    (hnd : (R.map Prod.fst).Nodup) :
    ((∀ kv ∈ R, countVotes C kv.1 = 0) →
      determineBestBrandByVotes C R = none) ∧
    (∀ b : Brand, determineBestBrandByVotes C R = some b →
      ∃ pre w suf, R = pre ++ w :: suf ∧ w.2 = b ∧ w.1 ≠ "" ∧
        0 < countVotes C w.1 ∧
        (∀ kv ∈ R, countVotes C kv.1 ≤ countVotes C w.1) ∧
        (∀ kv ∈ pre, countVotes C kv.1 < countVotes C w.1)) ∧
    (determineBestBrandByVotes C R = none →
      (∀ kv ∈ R, countVotes C kv.1 = 0) ∨
      ∃ pre b' suf, R = pre ++ ("", b') :: suf ∧ 0 < countVotes C "" ∧
        (∀ kv ∈ R, countVotes C kv.1 ≤ countVotes C "") ∧
        (∀ kv ∈ pre, countVotes C kv.1 < countVotes C "")) := by
  by_cases hC : C.isEmpty
  · have hCnil : C = [] := List.isEmpty_iff.mp hC
    refine ⟨fun _ => by rw [determineBest_eq, if_pos hC], ?_, ?_⟩
    · intro b hb
      rw [determineBest_eq, if_pos hC] at hb
      simp at hb
    · intro _
      left
      intro kv _
      subst hCnil
      rfl
  · by_cases hT : (tallyVotes C R).isEmpty
    · refine ⟨fun _ => by rw [determineBest_eq, if_neg hC, if_pos hT],
        ?_, ?_⟩
      · intro b hb
        rw [determineBest_eq, if_neg hC, if_pos hT] at hb
        simp at hb
      · intro _
        left
        exact tallyVotes_nil (List.isEmpty_iff.mp hT)
    · have hne : tallyVotes C R ≠ [] := fun h => hT (by rw [h]; rfl)
      obtain ⟨p, e, s, heq, hp, hall⟩ := exists_first_max _ hne
      have hemem : e ∈ tallyVotes C R := by
        rw [heq]
        exact List.mem_append_right _ (List.mem_cons_self e s)
      obtain ⟨hecount, hepos, _⟩ := tallyVotes_mem hemem
      have hsel : selectWinner (tallyVotes C R) 0 none = some e.1 := by
        rw [heq]
        apply selectWinner_first p e s 0 none hepos hp
        intro x hx
        exact hall x
          (by rw [heq]
              exact List.mem_append_right _ (List.mem_cons_of_mem e hx))
      obtain ⟨P, w, S, hR, hf, hPf⟩ := filterMap_decomp _ R p e s heq
      have hwpos : 0 < countVotes C w.1 := by
        by_contra hcontra
        rw [if_neg hcontra] at hf
        simp at hf
      rw [if_pos hwpos] at hf
      obtain rfl := Option.some.inj hf
      have hwmem : w ∈ R := by
        rw [hR]
        exact List.mem_append_right _ (List.mem_cons_self w S)
      have hglobal : ∀ kv ∈ R, countVotes C kv.1 ≤ countVotes C w.1 := by
        intro kv hkv
        by_cases hkvpos : 0 < countVotes C kv.1
        · have hmem2 := tallyVotes_mem_of kv hkv hkvpos
          have hb2 := hall _ hmem2
          simpa using hb2
        · omega
      have hprelt : ∀ kv ∈ P, countVotes C kv.1 < countVotes C w.1 := by
        intro kv hkv
        by_cases hkvpos : 0 < countVotes C kv.1
        · have hmem2 : (kv.1, countVotes C kv.1) ∈ tallyVotes C P :=
            tallyVotes_mem_of kv hkv hkvpos
          have hPp : tallyVotes C P = p := hPf
          have hmem3 : (kv.1, countVotes C kv.1) ∈ p := by
            rw [← hPp]
            exact hmem2
          have hb3 := hp _ hmem3
          simpa using hb3
        · omega
      by_cases hk : w.1 = ""
      · have hdet : determineBestBrandByVotes C R = none := by
          rw [determineBest_eq, if_neg hC, if_neg hT, hsel]
          dsimp only
          rw [if_pos (by simp [hk])]
        refine ⟨fun _ => hdet, ?_, ?_⟩
        · intro b hb
          rw [hdet] at hb
          simp at hb
        · intro _
          right
          have hw : ("", w.2) = w := by rw [← hk]
          refine ⟨P, w.2, S, ?_, ?_, ?_, ?_⟩
          · rw [hw]
            exact hR
          · rw [← hk]
            exact hwpos
          · rw [← hk]
            exact hglobal
          · rw [← hk]
            exact hprelt
      · have hget : mapGet R w.1 = some w.2 := by
          unfold mapGet
          rw [find_of_mem_nodup R w hnd hwmem]
          rfl
        have hdet : determineBestBrandByVotes C R = some w.2 := by
          rw [determineBest_eq, if_neg hC, if_neg hT, hsel]
          dsimp only
          rw [if_neg (by simp [hk])]
          exact hget
        refine ⟨?_, ?_, ?_⟩
        · intro hall0
          exact absurd (hall0 w hwmem) (by omega)
        · intro b hb
          rw [hdet] at hb
          obtain rfl := Option.some.inj hb
          exact ⟨P, w, S, hR, rfl, hk, hwpos, hglobal, hprelt⟩
        · intro hnone
          rw [hdet] at hnone
          simp at hnone

theorem acc_step (b : Bool) (x n : Nat) :
    (if b then x + n else x) = x + signalWeight b n := by
  cases b <;> simp [signalWeight]

theorem if_weight (b : Bool) (n : Nat) :
    (if b then n else (0 : Nat)) = signalWeight b n := rfl

theorem isProductPageRun_gate_false (d : PdpDoc)
    (h : d.actionButtons = false) :
    isProductPageRun d = { isPDP := false, score := 0, evaluated := [] } := by
  unfold isProductPageRun
  rw [h]
  rfl

theorem isProductPageRun_gate_true (d : PdpDoc) (h : d.actionButtons = true) :
    isProductPageRun d =
      { isPDP := decide (75 ≤ pdpWeightedSum d), score := pdpWeightedSum d,
        evaluated := pdpDetectorNames } := by
  unfold isProductPageRun
  rw [h]
  simp only [Bool.not_true, Bool.false_eq_true, if_false, acc_step,
    if_weight, Nat.zero_add]
  have hsum : signalWeight (d.structuredData.found &&
        d.structuredData.hasOffer) 40 + signalWeight d.priceFound 25 +
      signalWeight d.images 20 + signalWeight d.urlPattern 25 +
      signalWeight d.reviews 15 + signalWeight d.description 15 +
      signalWeight d.metadata 10 + signalWeight d.selectors 10 +
      signalWeight d.breadcrumbs 15 + signalWeight d.shipping 15 =
      pdpWeightedSum d := by
    unfold pdpWeightedSum
    rfl
  rw [hsum]

theorem signalWeight_le (b : Bool) (n : Nat) : signalWeight b n ≤ n := by
  cases b <;> simp [signalWeight]

theorem signalWeight_dvd (k : Nat) (b : Bool) (n : Nat) (h : k ∣ n) :
    k ∣ signalWeight b n := by
  cases b <;> simp [signalWeight]
  exact h

theorem pdpWeightedSum_le (d : PdpDoc) : pdpWeightedSum d ≤ 190 := by
  unfold pdpWeightedSum
  have h1 := signalWeight_le
    (d.structuredData.found && d.structuredData.hasOffer) 40
  have h2 := signalWeight_le d.priceFound 25
  have h3 := signalWeight_le d.images 20
  have h4 := signalWeight_le d.urlPattern 25
  have h5 := signalWeight_le d.reviews 15
  have h6 := signalWeight_le d.description 15
  have h7 := signalWeight_le d.metadata 10
  have h8 := signalWeight_le d.selectors 10
  have h9 := signalWeight_le d.breadcrumbs 15
  have h10 := signalWeight_le d.shipping 15
  omega

theorem pdpWeightedSum_dvd5 (d : PdpDoc) : 5 ∣ pdpWeightedSum d := by
  unfold pdpWeightedSum
  repeat' apply Nat.dvd_add
  all_goals apply signalWeight_dvd
  all_goals norm_num

/-- C1: for every document state, `isProductPage` returns true exactly
when the action-button gate holds and the weighted sum of the ten signals
(structuredData 40, price 25, urlPattern 25, images 20, reviews 15,
description 15, breadcrumbs 15, shipping 15, metadata 10, selectors 10)
is at least the threshold 75; in particular, with the gate passing, a
total below 75 (such as 74, were it reachable) yields false and a total
of 75 yields true. -/
theorem c1_isProductPage_iff (d : PdpDoc) :
    (isProductPageRun d).isPDP = true ↔
      d.actionButtons = true ∧ 75 ≤ pdpWeightedSum d := by
  cases hd : d.actionButtons with
  | false =>
    rw [isProductPageRun_gate_false d hd]
    simp
  | true =>
    rw [isProductPageRun_gate_true d hd]
    simp

/-- C3: whenever the action-button gate fails, `isProductPage` returns
false with score 0 and invokes none of the ten signal detectors,
regardless of what the other signals would report. -/
theorem c3_gate_short_circuit (d : PdpDoc) (h : d.actionButtons = false) :
    isProductPageRun d = { isPDP := false, score := 0, evaluated := [] } :=
  isProductPageRun_gate_false d h

/-- C3 witness: a state with every scored signal present but the gate
failing still yields false, score 0, and no detector invoked. -/
theorem c3_gate_short_circuit_witness :
    pdpDocGateFail.actionButtons = false ∧
    isProductPageRun pdpDocGateFail =
      { isPDP := false, score := 0, evaluated := [] } :=
  ⟨rfl, c3_gate_short_circuit pdpDocGateFail rfl⟩

/-- C10 counterexample: with the gate passing and every signal present
the score is 190, so the claimed upper bound 180 (and the weight multiset
summing to 180) is wrong. -/
theorem c10_score_range_counterexample :
    (isProductPageRun pdpDocAllTrue).score = 190 ∧
    ¬((isProductPageRun pdpDocAllTrue).score ≤ 180) := by decide

/-- C10 amended: for every document state the score is a sum of a subset
of the weights {40, 25, 25, 20, 15, 15, 15, 15, 10, 10}: it lies between
0 and 190 (not 180) and is divisible by 5, so a score of exactly 74 is
unreachable and the test score ≥ 75 is equivalent to score > 70. -/
theorem c10_score_range_amended (d : PdpDoc) :
    (isProductPageRun d).score ≤ 190 ∧
    5 ∣ (isProductPageRun d).score ∧
    (isProductPageRun d).score ≠ 74 ∧
    (75 ≤ (isProductPageRun d).score ↔ 70 < (isProductPageRun d).score) := by
  cases hd : d.actionButtons with
  | false =>
    rw [isProductPageRun_gate_false d hd]
    decide
  | true =>
    rw [isProductPageRun_gate_true d hd]
    have hle := pdpWeightedSum_le d
    have hdvd := pdpWeightedSum_dvd5 d
    refine ⟨hle, hdvd, ?_, ?_⟩
    · show pdpWeightedSum d ≠ 74
      intro h74
      omega
    · show 75 ≤ pdpWeightedSum d ↔ 70 < pdpWeightedSum d
      constructor <;> intro hcmp <;> omega

theorem detectStructuredData_skip :
    ∀ (pre post : List (Option JVal)),
      detectStructuredData (pre ++ none :: post) =
        detectStructuredData (pre ++ post)
  | [], post => rfl
  | none :: pre, post => detectStructuredData_skip pre post
  | some data :: pre, post => by
    rw [List.cons_append, List.cons_append]
    simp only [detectStructuredData]
    rw [detectStructuredData_skip pre post]

/-- C8: a malformed JSON-LD script (one whose `JSON.parse` throws) is
skipped by the per-script catch: the structured-data signal is computed
from the remaining scripts alone, the whole scoring pass returns exactly
what it returns without the malformed script, and (when the gate passes)
all ten signal detectors still run to completion. -/
theorem c8_malformed_script_skipped (d : PdpDocF)
    (pre post : List (Option JVal)) (h : d.scripts = pre ++ none :: post) :
    detectStructuredData d.scripts = detectStructuredData (pre ++ post) ∧
    runFull d = runFull { d with scripts := pre ++ post } ∧
    (d.actionButtons = true → (runFull d).evaluated = pdpDetectorNames) := by
  have hsd := detectStructuredData_skip pre post
  refine ⟨by rw [h]; exact hsd, ?_, ?_⟩
  · unfold runFull toPdpDoc
    rw [h, hsd]
  · intro hab
    unfold runFull
    rw [isProductPageRun_gate_true (toPdpDoc d) hab]

/-- C8 witness: a concrete page whose first script is malformed: the
Product node in the second script is still found and the pass completes
with all detectors evaluated. -/
theorem c8_malformed_script_skipped_witness :
    pdpDocFMixed.scripts = [] ++ none :: [some prodNode] ∧
    (detectStructuredData pdpDocFMixed.scripts =
       detectStructuredData ([] ++ [some prodNode]) ∧
     runFull pdpDocFMixed =
       runFull { pdpDocFMixed with scripts := [] ++ [some prodNode] } ∧
     (pdpDocFMixed.actionButtons = true →
       (runFull pdpDocFMixed).evaluated = pdpDetectorNames)) :=
  ⟨rfl, c8_malformed_script_skipped pdpDocFMixed [] [some prodNode] rfl⟩

/-- C2 counterexample: the registry built from the loader row "--" has
the single key "", the candidate "." normalizes to that key (one vote),
yet the vote returns null — refuting the original claim that null is
returned (only) when no candidate normalizes to any registry key and that
the winner is the max-count key. -/
theorem c2_empty_key_counterexample :
    loadBrandsMap "brand\n--" = [("", { name := "--", cashback := 33 })] ∧
    0 < countVotes ["."] "" ∧
    determineBestBrandByVotes ["."] (loadBrandsMap "brand\n--") =
      none := by decide

/-- C2 witness: a concrete candidate list and registry in which "adidas"
wins with two votes over one for "nike". -/
theorem c2_vote_winner_witness :
    (regTwo.map Prod.fst).Nodup ∧
    (((∀ kv ∈ regTwo, countVotes ["Adidas", "nike", "ADIDAS"] kv.1 = 0) →
       determineBestBrandByVotes ["Adidas", "nike", "ADIDAS"] regTwo =
         none) ∧
     (∀ b : Brand,
       determineBestBrandByVotes ["Adidas", "nike", "ADIDAS"] regTwo =
         some b →
       ∃ pre w suf, regTwo = pre ++ w :: suf ∧ w.2 = b ∧ w.1 ≠ "" ∧
         0 < countVotes ["Adidas", "nike", "ADIDAS"] w.1 ∧
         (∀ kv ∈ regTwo,
           countVotes ["Adidas", "nike", "ADIDAS"] kv.1 ≤
             countVotes ["Adidas", "nike", "ADIDAS"] w.1) ∧
         (∀ kv ∈ pre,
           countVotes ["Adidas", "nike", "ADIDAS"] kv.1 <
             countVotes ["Adidas", "nike", "ADIDAS"] w.1)) ∧
     (determineBestBrandByVotes ["Adidas", "nike", "ADIDAS"] regTwo =
         none →
       (∀ kv ∈ regTwo, countVotes ["Adidas", "nike", "ADIDAS"] kv.1 = 0) ∨
       ∃ pre b' suf, regTwo = pre ++ ("", b') :: suf ∧
         0 < countVotes ["Adidas", "nike", "ADIDAS"] "" ∧
         (∀ kv ∈ regTwo,
           countVotes ["Adidas", "nike", "ADIDAS"] kv.1 ≤
             countVotes ["Adidas", "nike", "ADIDAS"] "") ∧
         (∀ kv ∈ pre,
           countVotes ["Adidas", "nike", "ADIDAS"] kv.1 <
             countVotes ["Adidas", "nike", "ADIDAS"] ""))) :=
  ⟨by decide, c2_vote_winner ["Adidas", "nike", "ADIDAS"] regTwo (by decide)⟩

theorem determineBest_mem {C : List String} {R : List (String × Brand)}
    {b : Brand} (h : determineBestBrandByVotes C R = some b) :
    ∃ kv ∈ R, kv.2 = b := by
  rw [determineBest_eq] at h
  by_cases hC : C.isEmpty
  · rw [if_pos hC] at h
    simp at h
  · rw [if_neg hC] at h
    by_cases hT : (tallyVotes C R).isEmpty
    · rw [if_pos hT] at h
      simp at h
    · rw [if_neg hT] at h
      cases hsel : selectWinner (tallyVotes C R) 0 none with
      | none => rw [hsel] at h; simp at h
      | some k =>
        rw [hsel] at h
        dsimp only at h
        by_cases hk : (k == "") = true
        · rw [if_pos hk] at h
          simp at h
        · rw [if_neg hk] at h
          unfold mapGet at h
          cases hfind : R.find? (fun kv => kv.1 == k) with
          | none => rw [hfind] at h; simp at h
          | some kv =>
            rw [hfind] at h
            obtain rfl := Option.some.inj h
            exact ⟨kv, List.mem_of_find?_eq_some hfind, rfl⟩

theorem find_key_of_mem_nodup (R : List (String × Brand)) (k : String)
    (b : Brand) (hnd : (R.map Prod.fst).Nodup) (hmem : (k, b) ∈ R) :
    R.find? (fun x => x.1 == k) = some (k, b) :=
  find_of_mem_nodup R (k, b) hnd hmem

theorem mapSet_append (m : List (String × Brand)) (k : String) (v : Brand)
    (h : ∀ kv ∈ m, (kv.1 == k) = false) : mapSet m k v = m ++ [(k, v)] := by
  unfold mapSet
  have hany : m.any (fun kv => kv.1 == k) = false := by
    rw [List.any_eq_false]
    intro kv hkv
    simp [h kv hkv]
  rw [hany]
  simp

theorem buildMapAux_nodup :
    ∀ (pairs acc : List (String × Brand)),
      (((acc ++ pairs).map Prod.fst).Nodup) →
      pairs.foldl (fun m kv => mapSet m kv.1 kv.2) acc = acc ++ pairs
  | [], acc, _ => by simp
  | p :: pairs, acc, hnd => by
    rw [List.foldl_cons]
    have hset : mapSet acc p.1 p.2 = acc ++ [p] := by
      apply mapSet_append
      intro kv hkv
      rw [List.map_append, List.nodup_append] at hnd
      have hdisj := hnd.2.2
      rw [beq_eq_false_iff_ne, ne_eq]
      intro heq
      exact hdisj (List.mem_map.mpr ⟨kv, hkv, rfl⟩)
        (heq ▸ List.mem_map.mpr ⟨p, List.mem_cons_self p pairs, rfl⟩)
    rw [hset]
    have hnd2 : (((acc ++ [p]) ++ pairs).map Prod.fst).Nodup := by
      rw [List.append_assoc]
      simpa using hnd
    rw [buildMapAux_nodup pairs (acc ++ [p]) hnd2, List.append_assoc]
    rfl

theorem buildMap_eq_self (pairs : List (String × Brand))
    (h : (pairs.map Prod.fst).Nodup) : buildMap pairs = pairs := by
  have hb := buildMapAux_nodup pairs [] (by simpa using h)
  simpa [buildMap] using hb

/-- C7 counterexample: for the payload "name,cashback\nNike,10" in the
spec's `name,cashbackPercent` row format, looking up the normalized key
of the row's name resolves to nothing at all (the whole line including
the cashback column is taken as the name), and the only record built
carries the hard-coded cashback 33, not the row's 10. -/
theorem c7_roundtrip_counterexample :
    mapGet (loadBrandsMap csvWithCashback) (normalizeBrand "Nike") = none ∧
    mapGet (loadBrandsMap csvWithCashback) (normalizeBrand "Nike,10") =
      some { name := "Nike,10", cashback := 33 } := by decide

/-- C7 amended: for every payload whose rows produce pairwise-distinct
normalized keys, looking up the normalized key of each original row in
the built registry resolves to a record carrying that row's (trimmed,
quote-stripped) name and the constant cashback 33 — not any per-row
cashback value from the payload. -/
theorem c7_roundtrip_amended (csvText : String)
    (hnd : ((loadBrandsPairs csvText).map Prod.fst).Nodup)
    (name : String) (hmem : name ∈ parseBrandNames csvText) :
    mapGet (loadBrandsMap csvText) (normalizeBrand name) =
      some { name := name, cashback := 33 } := by
  unfold loadBrandsMap
  rw [buildMap_eq_self _ hnd]
  have hpair : (normalizeBrand name,
      ({ name := name, cashback := 33 } : Brand)) ∈
      loadBrandsPairs csvText := by
    unfold loadBrandsPairs loadBrandsList
    rw [List.map_map]
    exact List.mem_map.mpr ⟨name, hmem, rfl⟩
  unfold mapGet
  rw [find_key_of_mem_nodup _ _ _ hnd hpair]
  rfl

/-- C7 amended witness: round trip on the shipped single-column payload
format. -/
theorem c7_roundtrip_amended_witness :
    ((loadBrandsPairs csvTwoBrands).map Prod.fst).Nodup ∧
    "Nike" ∈ parseBrandNames csvTwoBrands ∧
    mapGet (loadBrandsMap csvTwoBrands) (normalizeBrand "Nike") =
      some { name := "Nike", cashback := 33 } :=
  ⟨by decide, by decide,
   c7_roundtrip_amended csvTwoBrands (by decide) "Nike" (by decide)⟩

theorem mapSet_cashback {m : List (String × Brand)} {k : String} {v : Brand}
    (h : ∀ kv ∈ m, kv.2.cashback = 33) (hv : v.cashback = 33) :
    ∀ kv ∈ mapSet m k v, kv.2.cashback = 33 := by
  intro kv hkv
  unfold mapSet at hkv
  split at hkv
  · obtain ⟨kv', hkv', heq⟩ := List.mem_map.mp hkv
    by_cases hk : (kv'.1 == k) = true
    · rw [if_pos hk] at heq
      rw [← heq]
      exact hv
    · rw [if_neg hk] at heq
      rw [← heq]
      exact h kv' hkv'
  · rcases List.mem_append.mp hkv with h1 | h2
    · exact h kv h1
    · have : kv = (k, v) := by simpa using h2
      rw [this]
      exact hv

theorem buildMapAux_cashback :
    ∀ (pairs acc : List (String × Brand)),
      (∀ kv ∈ pairs, kv.2.cashback = 33) →
      (∀ kv ∈ acc, kv.2.cashback = 33) →
      ∀ kv ∈ pairs.foldl (fun m kv => mapSet m kv.1 kv.2) acc,
        kv.2.cashback = 33
  | [], _, _, hacc => hacc
  | p :: pairs, acc, hps, hacc => by
    rw [List.foldl_cons]
    exact buildMapAux_cashback pairs _
      (fun kv hkv => hps kv (List.mem_cons_of_mem p hkv))
      (mapSet_cashback hacc (hps p (List.mem_cons_self p pairs)))

theorem loadBrandsMap_cashback (csvText : String) :
    ∀ kv ∈ loadBrandsMap csvText, kv.2.cashback = 33 := by
  apply buildMapAux_cashback
  · intro kv hkv
    unfold loadBrandsPairs loadBrandsList at hkv
    rw [List.map_map] at hkv
    obtain ⟨n, _, rfl⟩ := List.mem_map.mp hkv
    rfl
  · intro kv hkv
    simp at hkv

/-- C9: every record the registry loader builds carries the constant
cashback 33 (any per-row cashback in the payload is ignored), and
consequently every successful brand detection against such a registry
reports productInfo.cashback = 33. -/
theorem c9_cashback_constant (csvText : String) :
    (∀ kv ∈ loadBrandsMap csvText, kv.2.cashback = 33) ∧
    (∀ (p : BrandPage) (r : BrandDetectionResult),
      detectBrandOnPage p (loadBrandsMap csvText) = some r →
      r.productInfo.cashback = 33) := by
  refine ⟨loadBrandsMap_cashback csvText, ?_⟩
  intro p r hdet
  unfold detectBrandOnPage at hdet
  dsimp only at hdet
  cases hbest : determineBestBrandByVotes
      (findAllBrandCandidates p
        ((loadBrandsMap csvText).map (fun kv => kv.1)))
      (loadBrandsMap csvText) with
  | none => rw [hbest] at hdet; simp at hdet
  | some b =>
    rw [hbest] at hdet
    obtain rfl := Option.some.inj hdet
    obtain ⟨kv, hkvmem, rfl⟩ := determineBest_mem hbest
    exact loadBrandsMap_cashback csvText kv hkvmem

/-- C9 witness: on a concrete page and payload, detection succeeds and
reports cashback 33. -/
theorem c9_cashback_constant_witness :
    detectBrandOnPage nikePage (loadBrandsMap csvTwoBrands) =
      some suppResult ∧
    suppResult.productInfo.cashback = 33 :=
  ⟨by decide,
   (c9_cashback_constant csvTwoBrands).2 nikePage suppResult (by decide)⟩

/-- C4 counterexample: the content script's own notification decision
(`startDetection`) consults only `isSupported`: at a state whose PDP
decision is false it still treats a supported-brand page as actionable,
so "never treated as actionable without isProductPage" fails for that
decision; only the background's injection gate enforces the conjunction
(its value here is false). -/
theorem c4_actionable_counterexample :
    (isProductPageRun pdpDocGateFail).isPDP = false ∧
    startDetectionActs (some suppResult) "www.nike.com" = true ∧
    handleDetectionCompleteInjectsUI (some suppResult)
      ((isProductPageRun pdpDocGateFail).isPDP) = false := by decide

/-- C4 amended: the conjunction is enforced by the background's
UI-injection decision (`handleDetectionComplete`): it is true exactly
when a brand result exists with isSupported and isPdp both true.  The
content script's notification path itself, once injected, checks only
isSupported (plus the special-merchant fallback). -/
theorem c4_injection_conjunction (br : Option BrandDetectionResult)
    (p : Bool) :
    handleDetectionCompleteInjectsUI br p = true ↔
      (∃ r, br = some r ∧ r.isSupported = true) ∧ p = true := by
  cases br with
  | none =>
    simp [handleDetectionCompleteInjectsUI]
  | some r =>
    simp only [handleDetectionCompleteInjectsUI, Bool.and_eq_true]
    constructor
    · intro h
      exact ⟨⟨r, rfl, h.1⟩, h.2⟩
    · intro h
      obtain ⟨⟨r', heq, hs⟩, hp⟩ := h
      obtain rfl := Option.some.inj heq
      exact ⟨hs, hp⟩

/-- C5: evaluating `extractMainDomain` at the claim's own examples: for
"www.levi.co.uk" the code returns the second-to-last label "co", not the
registrable-domain label "levi" promised by the claim and by the
function's own doc comment; for the single-suffix "www.underarmour.com"
it returns "underarmour" as claimed, and the extracted label is fed to
the vote as a candidate. -/
theorem c5_extractMainDomain_at_examples :
    extractMainDomain "www.levi.co.uk" = some "co" ∧
    extractMainDomain "www.underarmour.com" = some "underarmour" ∧
    "co" ∈ findAllBrandCandidates leviPage [] := by decide

/-- C6: the brand-name normalization is idempotent on every string, and
on every non-string JS input it returns the empty string rather than
throwing (totality is the definedness of the function itself). -/
theorem c6_normalize_total_idempotent :
    (∀ s : String, normalizeBrand (normalizeBrand s) = normalizeBrand s) ∧
    normalizeBrandJS JVal.jnull = "" ∧
    (∀ n : Int, normalizeBrandJS (JVal.jnum n) = "") ∧
    (∀ b : Bool, normalizeBrandJS (JVal.jbool b) = "") ∧
    (∀ l : List JVal, normalizeBrandJS (JVal.jarr l) = "") ∧
    (∀ o : List (String × JVal), normalizeBrandJS (JVal.jobj o) = "") :=
  ⟨normalizeBrand_idem, rfl, fun _ => rfl, fun _ => rfl, fun _ => rfl,
   fun _ => rfl⟩
